import Mathlib

/-!
# Recovery gate of the crimson OSD: `CommonClientRequest::do_recover_missing`

Shallow embedding of `src/crimson/osd/osd_operations/client_request_common.cc`.

* Part 1 embeds `do_recover_missing` itself.  Every member function it calls
  on the placement group (`is_unreadable_object`, `is_degraded_or_backfilling_object`,
  `get_recovery_backend()->is_recovering`, `get_recovery_backend()->get_recovering`,
  `wait_for_recovered`, `get_osdmap_epoch`, `get_shard_services().start_operation`)
  is declared outside this translation unit, so it is a parameter, and the
  embedding records the calls it makes in order.  The two `logger().debug`
  lines (20 and 25) and the accessors `get_recovery_backend()` and
  `get_shard_services()` are left out.  The function body has no continuation
  and no suspension point of its own: one call is one step.
* Part 2 models the recovery-session registry, the operation scheduler and the
  recovery task from the specification and plugs them into Part 1.  The
  scheduler only accepts the task and returns a handle and a future; a session
  is registered by the registry's `create_session`, which the function embedded
  in Part 1 never calls.
-/

namespace Crimson

/-! ## Part 1: the gate, over arbitrary collaborators -/

/-- Modelled from the spec: `epoch_t` is declared outside this translation
unit; the spec calls it a monotonically increasing integer. -/
abbrev epoch_t := Nat

/-- Modelled from the spec: `eversion_t` is declared outside this translation
unit; the spec describes it as a pair (epoch, counter).  The field defaults are
the default-constructed value that `eversion_t ver;` (line 19) creates. -/
structure eversion_t where
  version : Nat := 0
  epoch : epoch_t := 0
deriving DecidableEq

/-- Modelled from the spec: `hobject_t` is declared outside this translation
unit; the spec asks of an object identity only that it is immutable and
supports equality. -/
structure hobject_t where
  oid : Nat
deriving DecidableEq

/-- One call that `do_recover_missing` makes on a collaborator, with the
arguments passed and, for the boolean queries, the value returned. -/
inductive Call where
  | is_unreadable_object (soid : hobject_t) (ret : Bool)
  | is_degraded_or_backfilling_object (soid : hobject_t) (ret : Bool)
  | is_recovering (soid : hobject_t) (ret : Bool)
  | get_recovering (soid : hobject_t)
  | wait_for_recovered
  | get_osdmap_epoch (ret : epoch_t)
  | start_operation (soid : hobject_t) (ver : eversion_t) (epoch : epoch_t)
deriving DecidableEq

/-- Recognises a `start_operation<UrgentRecovery>` call. -/
def Call.is_start_operation : Call → Bool
  | .start_operation _ _ _ => true
  | _ => false

/-- Recognises the calls that reach the recovery backend's registry or the
shard services' scheduler. -/
def Call.on_registry_or_scheduler : Call → Bool
  | .is_recovering _ _ => true
  | .get_recovering _ => true
  | .wait_for_recovered => true
  | .start_operation _ _ _ => true
  | _ => false

/-- The member functions `do_recover_missing` calls through `pg`, over a
placement-group state `σ`, a type `S` of references to registry sessions, a
type `O` of operation references and a type `F` of futures handed out by the
collaborators.

* `is_unreadable_object pg soid` gives the returned `bool` and what was written
  through the out-parameter `&ver` (`none`: nothing was written);
* `get_recovering pg soid` is `none` when `soid` is not a key of the registry;
* `start_operation` gives the pair `(op, fut)` of line 29;
* `wait_for_recovered` and `start_operation` may change the state; the other
  five are queries. -/
structure PGInterface (σ S O F : Type) where
  is_unreadable_object : σ → hobject_t → Bool × Option eversion_t
  is_degraded_or_backfilling_object : σ → hobject_t → Bool
  is_recovering : σ → hobject_t → Bool
  get_recovering : σ → hobject_t → Option S
  wait_for_recovered : σ → S → F × σ
  get_osdmap_epoch : σ → epoch_t
  start_operation : σ → hobject_t → eversion_t → epoch_t → (O × F) × σ

/-- The `interruptible_future<>` that `do_recover_missing` returns: either
`seastar::now()`, which is already resolved successfully, or a future obtained
from a collaborator. -/
inductive interruptible_future (F : Type) where
  | now : interruptible_future F
  | of (f : F) : interruptible_future F
deriving DecidableEq

/-- What one call of `do_recover_missing` leaves behind: the returned future
(`none` when `get_recovering` was asked for a key the registry does not hold),
the placement-group state after the call, and the collaborator calls made, in
order. -/
structure Returned (σ F : Type) where
  fut : Option (interruptible_future F)
  pg : σ
  calls : List Call

/-- The value of the local `ver` after `pg->is_unreadable_object(soid, &ver)`:
what the check wrote through the pointer, the default-constructed value of
line 19 where it wrote nothing. -/
def ver_after_check {σ S O F : Type} (ops : PGInterface σ S O F) (pg : σ) (soid : hobject_t) :
    eversion_t :=
  match (ops.is_unreadable_object pg soid).2 with
  | some v => v
  | none => {}

/-- Lines 25-33 of `do_recover_missing`: reached when the object needs
recovery; `ver` is the local of line 19 and `calls` the calls made so far. -/
def wait_or_start_recovery {σ S O F : Type} (ops : PGInterface σ S O F) (pg : σ) (soid : hobject_t)
    (ver : eversion_t) (calls : List Call) : Returned σ F :=
  if ops.is_recovering pg soid then
    match ops.get_recovering pg soid with
    | none =>
      { fut := none, pg := pg,
        calls := calls ++ [Call.is_recovering soid true, Call.get_recovering soid] }
    | some session =>
      { fut := some (interruptible_future.of (ops.wait_for_recovered pg session).1),
        pg := (ops.wait_for_recovered pg session).2,
        calls := calls ++ [Call.is_recovering soid true, Call.get_recovering soid,
                           Call.wait_for_recovered] }
  else
    { fut := some (interruptible_future.of
        (ops.start_operation pg soid ver (ops.get_osdmap_epoch pg)).1.2),
      pg := (ops.start_operation pg soid ver (ops.get_osdmap_epoch pg)).2,
      calls := calls ++ [Call.is_recovering soid false,
                         Call.get_osdmap_epoch (ops.get_osdmap_epoch pg),
                         Call.start_operation soid ver (ops.get_osdmap_epoch pg)] }

/-- Embedding of `CommonClientRequest::do_recover_missing` (lines 15-34).  The
`&&` of line 21 short-circuits: `is_degraded_or_backfilling_object` is called
only when `is_unreadable_object` returned false. -/
def do_recover_missing {σ S O F : Type} (ops : PGInterface σ S O F) (pg : σ) (soid : hobject_t) :
    Returned σ F :=
  if (ops.is_unreadable_object pg soid).1 then
    wait_or_start_recovery ops pg soid (ver_after_check ops pg soid)
      [Call.is_unreadable_object soid true]
  else if ops.is_degraded_or_backfilling_object pg soid then
    wait_or_start_recovery ops pg soid (ver_after_check ops pg soid)
      [Call.is_unreadable_object soid false,
       Call.is_degraded_or_backfilling_object soid true]
  else
    { fut := some interruptible_future.now, pg := pg,
      calls := [Call.is_unreadable_object soid false,
                Call.is_degraded_or_backfilling_object soid false] }

/-- The condition of line 21 negated: the object is unreadable or
degraded/backfilling. -/
def needs_recovery {σ S O F : Type} (ops : PGInterface σ S O F) (pg : σ) (soid : hobject_t) : Bool :=
  (ops.is_unreadable_object pg soid).1 || ops.is_degraded_or_backfilling_object pg soid

/-- The results of `n` calls of `do_recover_missing` on the same object made
one after the other, each on the state the previous one left. -/
def calls_in_a_row {σ S O F : Type} (ops : PGInterface σ S O F) (soid : hobject_t) :
    Nat → σ → List (Returned σ F)
  | 0, _ => []
  | n + 1, pg =>
    do_recover_missing ops pg soid ::
      calls_in_a_row ops soid n (do_recover_missing ops pg soid).pg

/-- The placement-group state after `n` calls of `do_recover_missing` in a row. -/
def pg_after {σ S O F : Type} (ops : PGInterface σ S O F) (soid : hobject_t) : Nat → σ → σ
  | 0, pg => pg
  | n + 1, pg => pg_after ops soid n (do_recover_missing ops pg soid).pg


/-! ## Part 2: registry, scheduler and recovery task, modelled from the specification

None of `RecoveryBackend`, `ShardServices::start_operation` and `UrgentRecovery`
is defined in this translation unit.  The definitions below follow sections 2,
3, 4.2, 4.3, 4.4 and 6 of the specification. -/

/-- Modelled from the spec: the waiter completion handle of section 3, absent
from the sources; a waiter is known by the number `attach_waiter` gives it. -/
abbrev WaiterId := Nat

/-- Modelled from the spec: the opaque `RecoveryTaskHandle` of section 3, absent
from the sources; a task is known by its position in the scheduler's list. -/
abbrev TaskHandle := Nat

/-- Modelled from the spec: the caller-visible results of section 7, absent
from the sources: success, or the interruption signal. -/
inductive Outcome where
  | success
  | interrupted
deriving DecidableEq

/-- Modelled from the spec: the futures the collaborators hand out, absent from
the sources: the awaitable that `start_operation` returns next to the task
handle (section 6), which is the completion signal of that task (section 2),
or the future of a waiter attached to a session (section 4.1 step 3). -/
inductive Awaitable where
  | operation (h : TaskHandle)
  | waiter (w : WaiterId)
deriving DecidableEq

/-- Modelled from the spec: the states of the recovery-task state machine of
section 4.3, absent from the sources. -/
inductive TaskState where
  | Scheduled
  | Running
  | Completed
  | Cancelled
  | Failed
deriving DecidableEq

/-- Modelled from the spec: the `RecoverySession` of section 3, absent from the
sources: target object identity, target version, owning task handle, ordered
collection of waiters, creation epoch. -/
structure RecoverySession where
  soid : hobject_t
  version : eversion_t
  task : TaskHandle
  waiters : List WaiterId
  epoch : epoch_t
deriving DecidableEq

/-- Modelled from the spec: the recovery task of section 4.3 (`UrgentRecovery`,
absent from the sources): object identity, target version, epoch at creation,
and its state. -/
structure RecoveryTask where
  soid : hobject_t
  version : eversion_t
  epoch : epoch_t
  state : TaskState
deriving DecidableEq

/-- Modelled from the spec: one placement-group shard, absent from the sources.
`unreadable`, `degraded` and `epoch` are the observable state of the
`PlacementGroupView` of section 6 (`unreadable` in the shape line 21 of the
source consumes it: the returned `bool` and what is written to `&ver`);
`registry` is the session registry of section 4.2; `tasks` is what the
operation scheduler has been asked to start; `resolved` lists, in order, every
waiter that has been resolved and with what; `next_waiter` is the next unused
waiter number. -/
structure Shard where
  unreadable : hobject_t → Bool × Option eversion_t
  degraded : hobject_t → Bool
  epoch : epoch_t
  registry : List RecoverySession
  tasks : List RecoveryTask
  resolved : List (WaiterId × Outcome)
  next_waiter : WaiterId

/-- Modelled from the spec: `is_recovering(soid) -> bool` of section 4.2, absent
from the sources. -/
def Registry.is_recovering (registry : List RecoverySession) (soid : hobject_t) : Bool :=
  registry.any (fun s => decide (s.soid = soid))

/-- Modelled from the spec: `get_session(soid) -> Option<&Session>` of section
4.2, absent from the sources. -/
def Registry.get_session (registry : List RecoverySession) (soid : hobject_t) :
    Option RecoverySession :=
  registry.find? (fun s => decide (s.soid = soid))

/-- Modelled from the spec: `create_session(soid, version, task_handle)` of
section 4.2, absent from the sources: a single check-then-insert that leaves
the registry alone when a session already exists for `soid`. -/
def Registry.create_session (registry : List RecoverySession) (soid : hobject_t)
    (version : eversion_t) (task : TaskHandle) (epoch : epoch_t) : List RecoverySession :=
  if Registry.is_recovering registry soid then registry
  else registry ++
    [{ soid := soid, version := version, task := task, waiters := [], epoch := epoch }]

/-- Modelled from the spec: `attach_waiter(session, completion)` of section 4.2,
absent from the sources: the waiter is appended to the ordered collection of
the session that a lookup of `soid` finds. -/
def Registry.attach_waiter : List RecoverySession → hobject_t → WaiterId → List RecoverySession
  | [], _, _ => []
  | s :: rest, soid, w =>
    if s.soid = soid then { s with waiters := s.waiters ++ [w] } :: rest
    else s :: Registry.attach_waiter rest soid w

/-- Modelled from the spec: `create_session` of section 4.2 on the registry of
a shard; the creation epoch of the session is the epoch of the shard.  The
source never calls it: lines 29-32 only start the operation. -/
def Shard.create_session (sh : Shard) (soid : hobject_t) (version : eversion_t)
    (task : TaskHandle) : Shard :=
  { sh with registry := Registry.create_session sh.registry soid version task sh.epoch }

/-- Modelled from the spec: `complete_session(soid, outcome)` of section 4.2,
absent from the sources: resolves every attached waiter with `outcome`, then
removes the session.  Calling it when no session is registered for `soid` (a
second completion) is the fatal programming error, `none`. -/
def Shard.complete_session (sh : Shard) (soid : hobject_t) (outcome : Outcome) : Option Shard :=
  match Registry.get_session sh.registry soid with
  | none => none
  | some session =>
    some { sh with
      resolved := sh.resolved ++ session.waiters.map (fun w => (w, outcome)),
      registry := sh.registry.filter (fun s => decide (s.soid ≠ soid)) }

/-- Modelled from the spec: `wait_for_recovered()` on a registry session, absent
from the sources; section 4.1 step 3: attach as waiter and return its future. -/
def Shard.wait_for_recovered (sh : Shard) (session : RecoverySession) : Awaitable × Shard :=
  (Awaitable.waiter sh.next_waiter,
   { sh with
     registry := Registry.attach_waiter sh.registry session.soid sh.next_waiter,
     next_waiter := sh.next_waiter + 1 })

/-- Modelled from the spec: `start_operation<UrgentRecovery>`, absent from the
sources.  Sections 2 and 6: the operation scheduler accepts the task
description (soid, version, epoch) and returns a handle and a future; the task
starts in `Scheduled` (section 4.3).  It does not touch the registry. -/
def Shard.start_operation (sh : Shard) (soid : hobject_t) (ver : eversion_t) (epoch : epoch_t) :
    (TaskHandle × Awaitable) × Shard :=
  ((sh.tasks.length, Awaitable.operation sh.tasks.length),
   { sh with
     tasks := sh.tasks ++
       [{ soid := soid, version := ver, epoch := epoch, state := TaskState.Scheduled }] })

/-- Modelled from the spec: the collaborators of `do_recover_missing`, absent
from the sources, as the shard of Part 2 provides them: the placement-group
queries read the view, the recovery backend is the registry, the shard
services are the scheduler. -/
def shard_ops : PGInterface Shard RecoverySession TaskHandle Awaitable where
  is_unreadable_object sh soid := sh.unreadable soid
  is_degraded_or_backfilling_object sh soid := sh.degraded soid
  is_recovering sh soid := Registry.is_recovering sh.registry soid
  get_recovering sh soid := Registry.get_session sh.registry soid
  wait_for_recovered sh session := sh.wait_for_recovered session
  get_osdmap_epoch sh := sh.epoch
  start_operation sh soid ver epoch := sh.start_operation soid ver epoch

/-- Modelled from the spec: the transition `Scheduled → Running` of section 4.3,
absent from the sources, taken when the scheduler dispatches task `h`. -/
def Shard.dispatch (sh : Shard) (h : TaskHandle) : Option Shard :=
  match sh.tasks[h]? with
  | none => none
  | some t =>
    if t.state = TaskState.Scheduled then
      some { sh with tasks := sh.tasks.set h { t with state := TaskState.Running } }
    else none

/-- What ends a running recovery task (section 4.3): the recovery protocol
confirms the object, the protocol reports an unrecoverable condition, or the
epoch change reaches the task. -/
inductive Report where
  | recovered
  | unrecoverable
  | epoch_changed
deriving DecidableEq

/-- Modelled from the spec: the transitions out of `Running` of section 4.3,
absent from the sources.  The task's creation epoch is compared with the
current epoch at completion (section 3): a confirmation that arrives after the
epoch advanced past the creation epoch cancels the task.  `none`: the
transition is not enabled. -/
def terminal_state (current : epoch_t) (t : RecoveryTask) : Report → Option TaskState
  | Report.recovered =>
    if t.epoch < current then some TaskState.Cancelled else some TaskState.Completed
  | Report.unrecoverable => some TaskState.Failed
  | Report.epoch_changed =>
    if t.epoch < current then some TaskState.Cancelled else none

/-- Modelled from the spec: what the waiters of a session receive when its
task reaches a terminal state (sections 4.3 and 7): success on `Completed`, the
interruption signal on `Cancelled` and on `Failed`. -/
def outcome_of : TaskState → Outcome
  | TaskState.Completed => Outcome.success
  | _ => Outcome.interrupted

/-- Modelled from the spec: a running task reaching a terminal state (section
4.3), absent from the sources: the task takes the terminal state and invokes
`complete_session` once.  `none`: the task is not running, the transition is
not enabled, or no session is registered for its object. -/
def Shard.terminate (sh : Shard) (h : TaskHandle) (r : Report) : Option Shard :=
  match sh.tasks[h]? with
  | none => none
  | some t =>
    if t.state = TaskState.Running then
      match terminal_state sh.epoch t r with
      | none => none
      | some st =>
        Shard.complete_session { sh with tasks := sh.tasks.set h { t with state := st } }
          t.soid (outcome_of st)
    else none

/-- Modelled from the spec: the broadcast of sections 4.3 and 4.4, absent from
the sources: each of the listed tasks that is running with a creation epoch
the current epoch is past takes the transition `Running → Cancelled`, which
completes its session with the interruption signal. -/
def Shard.cancel_stale : List TaskHandle → Shard → Option Shard
  | [], sh => some sh
  | h :: hs, sh =>
    match sh.tasks[h]? with
    | none => Shard.cancel_stale hs sh
    | some t =>
      if t.state = TaskState.Running ∧ t.epoch < sh.epoch then
        (sh.terminate h Report.epoch_changed).bind (Shard.cancel_stale hs)
      else Shard.cancel_stale hs sh

/-- Modelled from the spec: the placement group's epoch advancing to `e`
(glossary: the epoch is a counter that only grows), absent from the sources.
The change itself resolves the outstanding waiters (section 4.4): every running
task created in an earlier epoch is cancelled on the spot (section 4.3).
`none`: `e` is not past the current epoch, or a task to cancel has no session
to complete (the fatal error of section 4.2). -/
def Shard.advance_epoch (sh : Shard) (e : epoch_t) : Option Shard :=
  if sh.epoch < e then
    Shard.cancel_stale (List.range sh.tasks.length) { sh with epoch := e }
  else none

/-- The futures returned by a list of `do_recover_missing` calls. -/
def futures_of {σ F : Type} (rs : List (Returned σ F)) : List (Option (interruptible_future F)) :=
  rs.map (fun r => r.fut)

/-- The number of `start_operation` calls made by a list of
`do_recover_missing` calls. -/
def started_operations {σ F : Type} (rs : List (Returned σ F)) : Nat :=
  (rs.map (fun r => r.calls.countP Call.is_start_operation)).sum

/-- The scenario of section 8 of the specification before any caller arrives:
`obj-1` (here object 1) is unreadable and degraded with version (epoch 5,
counter 3), object 2 is degraded only and the unreadable-object check writes no
version for it, every other object is healthy; the epoch is 5 and nothing is
being recovered. -/
def demo_shard : Shard where
  unreadable o := if o.oid = 1 then (true, some { version := 3, epoch := 5 }) else (false, none)
  degraded o := decide (o.oid = 1 ∨ o.oid = 2)
  epoch := 5
  registry := []
  tasks := []
  resolved := []
  next_waiter := 0

/-- The session registered for object 1 of the demonstration shard and its
task 0: version (epoch 5, counter 3), epoch 5, no waiter yet. -/
def demo_session : RecoverySession :=
  { soid := ⟨1⟩, version := { version := 3, epoch := 5 }, task := 0, waiters := [], epoch := 5 }

/-- The demonstration shard after a first `do_recover_missing` on object 1 has
started task 0 and a session has been registered for that task. -/
def demo_recovering : Shard :=
  (do_recover_missing shard_ops demo_shard ⟨1⟩).pg.create_session ⟨1⟩
    { version := 3, epoch := 5 } 0

/-- The demonstration shard once the scheduler has dispatched task 0. -/
def demo_running : Shard :=
  { demo_recovering with
    tasks := [{ soid := ⟨1⟩, version := { version := 3, epoch := 5 }, epoch := 5,
                state := TaskState.Running }] }

/-- The invariant of the data model of section 3.  The registry holds at most
one session per object identity; waiter numbers in use are below the next
unused one; a waiter is attached once, to one session, and only while it is
unresolved; and every running task has the session of its object, which names
it as its owning task. -/
structure Shard.wf (sh : Shard) : Prop where
  keys : (sh.registry.map (fun s => s.soid)).Nodup
  resolved_lt : ∀ p ∈ sh.resolved, p.1 < sh.next_waiter
  waiters_lt : ∀ s ∈ sh.registry, ∀ w ∈ s.waiters, w < sh.next_waiter
  waiters_nodup : ∀ s ∈ sh.registry, s.waiters.Nodup
  waiters_disjoint : ∀ s1 ∈ sh.registry, ∀ s2 ∈ sh.registry, ∀ w ∈ s1.waiters,
    w ∈ s2.waiters → s1.soid = s2.soid
  unresolved : ∀ s ∈ sh.registry, ∀ w ∈ s.waiters, ∀ p ∈ sh.resolved, p.1 ≠ w
  linked : ∀ h t, sh.tasks[h]? = some t → t.state = TaskState.Running →
    ∃ s, Registry.get_session sh.registry t.soid = some s ∧ s.task = h

/-- C1. Fast path: when `is_unreadable_object(soid)` and
`is_degraded_or_backfilling_object(soid)` are both false, `do_recover_missing`
returns `seastar::now()`, leaves the placement-group state (registry and
scheduler included) exactly as it was, and makes no call on the registry or the
scheduler: neither `is_recovering`, nor `get_recovering`, nor
`wait_for_recovered`, nor `start_operation`. -/
theorem do_recover_missing_fast_path {σ S O F : Type} (ops : PGInterface σ S O F) (pg : σ)
    (soid : hobject_t)
    (hu : (ops.is_unreadable_object pg soid).1 = false)
    (hd : ops.is_degraded_or_backfilling_object pg soid = false) :
    (do_recover_missing ops pg soid).fut = some interruptible_future.now ∧
    (do_recover_missing ops pg soid).pg = pg ∧
    (do_recover_missing ops pg soid).calls =
      [Call.is_unreadable_object soid false,
       Call.is_degraded_or_backfilling_object soid false] ∧
    ∀ c ∈ (do_recover_missing ops pg soid).calls, c.on_registry_or_scheduler = false := by
  have hr : do_recover_missing ops pg soid =
      { fut := some interruptible_future.now, pg := pg,
        calls := [Call.is_unreadable_object soid false,
                  Call.is_degraded_or_backfilling_object soid false] } := by
    simp [do_recover_missing, hu, hd]
  rw [hr]
  refine ⟨rfl, rfl, rfl, ?_⟩
  intro c hc
  simp only [List.mem_cons, List.mem_singleton, List.not_mem_nil, or_false] at hc
  rcases hc with rfl | rfl <;> rfl

/-- The fast path of C1 on the healthy object 7 of the demonstration shard. -/
theorem do_recover_missing_fast_path_witness :
    (shard_ops.is_unreadable_object demo_shard ⟨7⟩).1 = false ∧
    shard_ops.is_degraded_or_backfilling_object demo_shard ⟨7⟩ = false ∧
    (do_recover_missing shard_ops demo_shard ⟨7⟩).fut = some interruptible_future.now ∧
    (do_recover_missing shard_ops demo_shard ⟨7⟩).pg = demo_shard ∧
    (do_recover_missing shard_ops demo_shard ⟨7⟩).calls =
      [Call.is_unreadable_object ⟨7⟩ false,
       Call.is_degraded_or_backfilling_object ⟨7⟩ false] ∧
    ∀ c ∈ (do_recover_missing shard_ops demo_shard ⟨7⟩).calls,
      c.on_registry_or_scheduler = false :=
  ⟨rfl, rfl, do_recover_missing_fast_path shard_ops demo_shard ⟨7⟩ rfl rfl⟩

/-- The number of `start_operation` calls among the calls of lines 25-33. -/
theorem wait_or_start_recovery_started {σ S O F : Type} (ops : PGInterface σ S O F) (pg : σ)
    (soid : hobject_t) (ver : eversion_t) (calls : List Call) :
    (wait_or_start_recovery ops pg soid ver calls).calls.countP Call.is_start_operation =
      calls.countP Call.is_start_operation +
        (if ops.is_recovering pg soid = true then 0 else 1) := by
  unfold wait_or_start_recovery
  by_cases hr : ops.is_recovering pg soid = true
  · rw [if_pos hr, if_pos hr]
    cases ops.get_recovering pg soid <;>
      simp [List.countP_append, List.countP_cons, Call.is_start_operation]
  · rw [if_neg hr, if_neg hr]
    simp [List.countP_append, List.countP_cons, Call.is_start_operation]

/-- C2. A single call of `do_recover_missing` calls
`start_operation<UrgentRecovery>` at most once, and exactly once if and only
if the object needs recovery (it is unreadable or degraded/backfilling) and
`is_recovering(soid)` is false. -/
theorem do_recover_missing_starts_at_most_once {σ S O F : Type} (ops : PGInterface σ S O F)
    (pg : σ) (soid : hobject_t) :
    (do_recover_missing ops pg soid).calls.countP Call.is_start_operation ≤ 1 ∧
    ((do_recover_missing ops pg soid).calls.countP Call.is_start_operation = 1 ↔
      (needs_recovery ops pg soid = true ∧ ops.is_recovering pg soid = false)) := by
  unfold do_recover_missing needs_recovery
  by_cases hu : (ops.is_unreadable_object pg soid).1 = true
  · rw [if_pos hu, wait_or_start_recovery_started]
    by_cases hr : ops.is_recovering pg soid = true <;>
      simp [hu, hr, List.countP_cons, Call.is_start_operation]
  · rw [if_neg hu]
    by_cases hd : ops.is_degraded_or_backfilling_object pg soid = true
    · rw [if_pos hd, wait_or_start_recovery_started]
      by_cases hr : ops.is_recovering pg soid = true <;>
        simp [hu, hd, hr, List.countP_cons, Call.is_start_operation]
    · rw [if_neg hd]
      simp [hu, hd, List.countP_cons, Call.is_start_operation]

/-- When the object needs recovery, `do_recover_missing` is lines 25-33 run
after the calls of line 21. -/
theorem do_recover_missing_of_needs_recovery {σ S O F : Type} (ops : PGInterface σ S O F)
    (pg : σ) (soid : hobject_t) (hn : needs_recovery ops pg soid = true) :
    ∃ calls, calls.countP Call.is_start_operation = 0 ∧
      (∀ o, Call.get_recovering o ∉ calls) ∧
      do_recover_missing ops pg soid =
        wait_or_start_recovery ops pg soid (ver_after_check ops pg soid) calls := by
  unfold needs_recovery at hn
  unfold do_recover_missing
  by_cases hu : (ops.is_unreadable_object pg soid).1 = true
  · refine ⟨[Call.is_unreadable_object soid true], ?_, ?_, ?_⟩
    · simp [List.countP_cons, Call.is_start_operation]
    · simp
    · rw [if_pos hu]
  · have hd : ops.is_degraded_or_backfilling_object pg soid = true := by
      simpa [hu] using hn
    refine ⟨[Call.is_unreadable_object soid false,
      Call.is_degraded_or_backfilling_object soid true], ?_, ?_, ?_⟩
    · simp [List.countP_cons, Call.is_start_operation]
    · simp
    · rw [if_neg hu, if_pos hd]

/-- A call of `do_recover_missing` on an object that needs recovery and has the
session `session`: its future, the state it leaves and its calls. -/
theorem do_recover_missing_waits {σ S O F : Type} (ops : PGInterface σ S O F) (pg : σ)
    (soid : hobject_t) (session : S)
    (hn : needs_recovery ops pg soid = true)
    (hr : ops.is_recovering pg soid = true)
    (hs : ops.get_recovering pg soid = some session) :
    (do_recover_missing ops pg soid).fut =
      some (interruptible_future.of (ops.wait_for_recovered pg session).1) ∧
    (do_recover_missing ops pg soid).pg = (ops.wait_for_recovered pg session).2 ∧
    (do_recover_missing ops pg soid).calls.countP Call.is_start_operation = 0 ∧
    Call.wait_for_recovered ∈ (do_recover_missing ops pg soid).calls := by
  obtain ⟨calls, hc, -, he⟩ := do_recover_missing_of_needs_recovery ops pg soid hn
  have hcount := wait_or_start_recovery_started ops pg soid (ver_after_check ops pg soid) calls
  rw [he]
  rw [hc, if_pos hr] at hcount
  refine ⟨?_, ?_, hcount, ?_⟩ <;> simp [wait_or_start_recovery, hr, hs]

/-- C3. Attach to an existing session: when the object needs recovery,
`is_recovering(soid)` is true and `get_recovering(soid)` is the session
`session`, `do_recover_missing` returns exactly the future that
`wait_for_recovered()` on that session produces, leaves the state that call
leaves, and makes no `start_operation` call. -/
theorem do_recover_missing_attaches {σ S O F : Type} (ops : PGInterface σ S O F) (pg : σ)
    (soid : hobject_t) (session : S)
    (hn : needs_recovery ops pg soid = true)
    (hr : ops.is_recovering pg soid = true)
    (hs : ops.get_recovering pg soid = some session) :
    (do_recover_missing ops pg soid).fut =
      some (interruptible_future.of (ops.wait_for_recovered pg session).1) ∧
    (do_recover_missing ops pg soid).pg = (ops.wait_for_recovered pg session).2 ∧
    (do_recover_missing ops pg soid).calls.countP Call.is_start_operation = 0 ∧
    Call.wait_for_recovered ∈ (do_recover_missing ops pg soid).calls :=
  do_recover_missing_waits ops pg soid session hn hr hs

/-- The `start_operation` calls of a call of `do_recover_missing` on an object
that needs recovery and has no session, its future and the state it leaves. -/
theorem do_recover_missing_starts {σ S O F : Type} (ops : PGInterface σ S O F)
    (pg : σ) (soid : hobject_t)
    (hn : needs_recovery ops pg soid = true)
    (hr : ops.is_recovering pg soid = false) :
    (do_recover_missing ops pg soid).calls.filter Call.is_start_operation =
      [Call.start_operation soid (ver_after_check ops pg soid) (ops.get_osdmap_epoch pg)] ∧
    (do_recover_missing ops pg soid).fut =
      some (interruptible_future.of
        (ops.start_operation pg soid (ver_after_check ops pg soid)
          (ops.get_osdmap_epoch pg)).1.2) ∧
    (do_recover_missing ops pg soid).pg =
      (ops.start_operation pg soid (ver_after_check ops pg soid) (ops.get_osdmap_epoch pg)).2 := by
  obtain ⟨calls, hc, -, he⟩ := do_recover_missing_of_needs_recovery ops pg soid hn
  rw [he]
  have hf : calls.filter Call.is_start_operation = [] := by
    rw [List.countP_eq_length_filter] at hc
    exact List.length_eq_zero.mp hc
  refine ⟨?_, ?_, ?_⟩
  · simp [wait_or_start_recovery, hr, List.filter_append, hf, List.filter_cons,
      Call.is_start_operation]
  · simp [wait_or_start_recovery, hr]
  · simp [wait_or_start_recovery, hr]

/-- C4. Task parameters: when the object needs recovery and `is_recovering(soid)`
is false, the one `start_operation` call that `do_recover_missing` makes is for
the `soid` passed in, with the value that `is_unreadable_object(soid, &ver)`
left in `ver` (the version the check wrote, whenever it wrote one), and with
`get_osdmap_epoch()` read during the call; the future returned to the caller is
the future of the pair `start_operation` returned, and the state left is the
state `start_operation` left. -/
theorem do_recover_missing_task_parameters {σ S O F : Type} (ops : PGInterface σ S O F)
    (pg : σ) (soid : hobject_t)
    (hn : needs_recovery ops pg soid = true)
    (hr : ops.is_recovering pg soid = false) :
    (do_recover_missing ops pg soid).calls.filter Call.is_start_operation =
      [Call.start_operation soid (ver_after_check ops pg soid) (ops.get_osdmap_epoch pg)] ∧
    (do_recover_missing ops pg soid).fut =
      some (interruptible_future.of
        (ops.start_operation pg soid (ver_after_check ops pg soid)
          (ops.get_osdmap_epoch pg)).1.2) ∧
    (do_recover_missing ops pg soid).pg =
      (ops.start_operation pg soid (ver_after_check ops pg soid) (ops.get_osdmap_epoch pg)).2 ∧
    ∀ v, (ops.is_unreadable_object pg soid).2 = some v → ver_after_check ops pg soid = v := by
  obtain ⟨h1, h2, h3⟩ := do_recover_missing_starts ops pg soid hn hr
  refine ⟨h1, h2, h3, ?_⟩
  intro v hv
  simp [ver_after_check, hv]

/-- The task parameters of C4 on the unreadable object 1 of the demonstration
shard: the task is for object 1, version (epoch 5, counter 3), epoch 5. -/
theorem do_recover_missing_task_parameters_witness :
    needs_recovery shard_ops demo_shard ⟨1⟩ = true ∧
    shard_ops.is_recovering demo_shard ⟨1⟩ = false ∧
    (do_recover_missing shard_ops demo_shard ⟨1⟩).calls.filter Call.is_start_operation =
      [Call.start_operation ⟨1⟩ { version := 3, epoch := 5 } 5] ∧
    (do_recover_missing shard_ops demo_shard ⟨1⟩).fut =
      some (interruptible_future.of (Awaitable.operation 0)) :=
  ⟨rfl, rfl, (do_recover_missing_task_parameters shard_ops demo_shard ⟨1⟩ rfl rfl).1,
    (do_recover_missing_task_parameters shard_ops demo_shard ⟨1⟩ rfl rfl).2.1⟩

/-- The attachment of C3 on object 1 of the demonstration shard once a session
is registered for it: the caller becomes waiter 0 of that session. -/
theorem do_recover_missing_attaches_witness :
    needs_recovery shard_ops demo_recovering ⟨1⟩ = true ∧
    shard_ops.is_recovering demo_recovering ⟨1⟩ = true ∧
    shard_ops.get_recovering demo_recovering ⟨1⟩ = some demo_session ∧
    (do_recover_missing shard_ops demo_recovering ⟨1⟩).fut =
      some (interruptible_future.of (Awaitable.waiter 0)) ∧
    (do_recover_missing shard_ops demo_recovering ⟨1⟩).calls.countP Call.is_start_operation = 0 :=
  ⟨rfl, rfl, rfl,
    (do_recover_missing_attaches shard_ops demo_recovering ⟨1⟩ demo_session rfl rfl rfl).1,
    (do_recover_missing_attaches shard_ops demo_recovering ⟨1⟩ demo_session rfl rfl rfl).2.2.1⟩

/-- C6. Idempotence of the gate on a healthy object: when the object is neither
unreadable nor degraded/backfilling, any number `n` of calls of
`do_recover_missing` in a row all give the same result, `seastar::now()` by the
fast path, each on the unchanged state, and the state after the `n` calls is
the state before them. -/
theorem do_recover_missing_idempotent_on_healthy {σ S O F : Type} (ops : PGInterface σ S O F)
    (pg : σ) (soid : hobject_t)
    (hu : (ops.is_unreadable_object pg soid).1 = false)
    (hd : ops.is_degraded_or_backfilling_object pg soid = false) (n : Nat) :
    calls_in_a_row ops soid n pg =
      List.replicate n
        { fut := some interruptible_future.now, pg := pg,
          calls := [Call.is_unreadable_object soid false,
                    Call.is_degraded_or_backfilling_object soid false] } ∧
    pg_after ops soid n pg = pg := by
  have hr : do_recover_missing ops pg soid =
      { fut := some interruptible_future.now, pg := pg,
        calls := [Call.is_unreadable_object soid false,
                  Call.is_degraded_or_backfilling_object soid false] } := by
    simp [do_recover_missing, hu, hd]
  induction n with
  | zero => exact ⟨rfl, rfl⟩
  | succ k ih =>
    constructor
    · simp only [calls_in_a_row, hr, List.replicate_succ]
      rw [ih.1]
    · simp only [pg_after, hr]
      exact ih.2

/-- The idempotence of C6 on the healthy object 7 of the demonstration shard,
called three times. -/
theorem do_recover_missing_idempotent_on_healthy_witness :
    (shard_ops.is_unreadable_object demo_shard ⟨7⟩).1 = false ∧
    shard_ops.is_degraded_or_backfilling_object demo_shard ⟨7⟩ = false ∧
    futures_of (calls_in_a_row shard_ops ⟨7⟩ 3 demo_shard) =
      [some interruptible_future.now, some interruptible_future.now,
       some interruptible_future.now] ∧
    pg_after shard_ops ⟨7⟩ 3 demo_shard = demo_shard :=
  ⟨rfl, rfl,
    congrArg futures_of
      (do_recover_missing_idempotent_on_healthy shard_ops demo_shard ⟨7⟩ rfl rfl 3).1,
    (do_recover_missing_idempotent_on_healthy shard_ops demo_shard ⟨7⟩ rfl rfl 3).2⟩

/-- The registry of Part 2 answers `is_recovering` and `get_session` from the
same lookup. -/
theorem Registry.get_session_isSome (registry : List RecoverySession) (soid : hobject_t) :
    (Registry.get_session registry soid).isSome = Registry.is_recovering registry soid := by
  unfold Registry.get_session Registry.is_recovering
  induction registry with
  | nil => rfl
  | cons s rest ih =>
    by_cases h : s.soid = soid <;> simp [List.find?_cons, h, ih]

/-- C9. Guarded registry lookup: `do_recover_missing` calls `get_recovering`
only for the `soid` it was given, only when `is_recovering(soid)` returned true
on the same state, and directly after that call; so on every registry that has
a session for `soid` whenever it reports `soid` as recovering, the missing-key
branch of the lookup is never taken and a future is always returned. -/
theorem do_recover_missing_lookup_guarded {σ S O F : Type} (ops : PGInterface σ S O F)
    (pg : σ) (soid : hobject_t)
    (hreg : ops.is_recovering pg soid = true → (ops.get_recovering pg soid).isSome = true) :
    (do_recover_missing ops pg soid).fut.isSome = true ∧
    ∀ o, Call.get_recovering o ∈ (do_recover_missing ops pg soid).calls →
      o = soid ∧ ops.is_recovering pg soid = true ∧
      [Call.is_recovering soid true, Call.get_recovering soid] <:+:
        (do_recover_missing ops pg soid).calls := by
  by_cases hn : needs_recovery ops pg soid = true
  · obtain ⟨calls, -, hg, he⟩ := do_recover_missing_of_needs_recovery ops pg soid hn
    rw [he]
    unfold wait_or_start_recovery
    by_cases hr : ops.is_recovering pg soid = true
    · rw [if_pos hr]
      have hsome := hreg hr
      cases hs : ops.get_recovering pg soid with
      | none => rw [hs] at hsome; cases hsome
      | some session =>
        refine ⟨rfl, ?_⟩
        intro o ho
        simp only [List.mem_append, List.mem_cons, List.mem_singleton, List.not_mem_nil,
          or_false] at ho
        rcases ho with ho | ho | ho | ho
        · exact absurd ho (hg o)
        · cases ho
        · cases ho
          exact ⟨rfl, hr, ⟨calls, [Call.wait_for_recovered], by simp⟩⟩
        · cases ho
    · rw [if_neg hr]
      refine ⟨rfl, ?_⟩
      intro o ho
      simp only [List.mem_append, List.mem_cons, List.mem_singleton, List.not_mem_nil,
        or_false] at ho
      rcases ho with ho | ho | ho | ho
      · exact absurd ho (hg o)
      · cases ho
      · cases ho
      · cases ho
  · have hu : (ops.is_unreadable_object pg soid).1 = false := by
      unfold needs_recovery at hn
      cases h : (ops.is_unreadable_object pg soid).1 <;> simp_all
    have hd : ops.is_degraded_or_backfilling_object pg soid = false := by
      unfold needs_recovery at hn
      cases h : ops.is_degraded_or_backfilling_object pg soid <;> simp_all
    have hr : do_recover_missing ops pg soid =
        { fut := some interruptible_future.now, pg := pg,
          calls := [Call.is_unreadable_object soid false,
                    Call.is_degraded_or_backfilling_object soid false] } := by
      simp [do_recover_missing, hu, hd]
    rw [hr]
    refine ⟨rfl, ?_⟩
    intro o ho
    simp at ho

/-- The guard of C9 on object 1 of the demonstration shard while it is being
recovered: the lookup is made, right after `is_recovering` returned true, and
a future comes back. -/
theorem do_recover_missing_lookup_guarded_witness :
    (shard_ops.is_recovering demo_recovering ⟨1⟩ = true →
      (shard_ops.get_recovering demo_recovering ⟨1⟩).isSome = true) ∧
    shard_ops.is_recovering demo_recovering ⟨1⟩ = true ∧
    (do_recover_missing shard_ops demo_recovering ⟨1⟩).fut.isSome = true ∧
    Call.get_recovering ⟨1⟩ ∈ (do_recover_missing shard_ops demo_recovering ⟨1⟩).calls ∧
    [Call.is_recovering ⟨1⟩ true, Call.get_recovering ⟨1⟩] <:+:
      (do_recover_missing shard_ops demo_recovering ⟨1⟩).calls :=
  ⟨fun _ => rfl, rfl,
    (do_recover_missing_lookup_guarded shard_ops demo_recovering ⟨1⟩ (fun _ => rfl)).1,
    by decide,
    ((do_recover_missing_lookup_guarded shard_ops demo_recovering ⟨1⟩ (fun _ => rfl)).2 ⟨1⟩
        (by decide)).2.2⟩

/-- C10. Target version of a degraded-only object: when
`is_unreadable_object(soid, &ver)` returns false without writing `ver`, the
object is degraded/backfilling and `is_recovering(soid)` is false, the recovery
task is started with the default-constructed `eversion_t` (version 0, epoch 0)
as its target version. -/
theorem do_recover_missing_degraded_only_version {σ S O F : Type} (ops : PGInterface σ S O F)
    (pg : σ) (soid : hobject_t)
    (hu : ops.is_unreadable_object pg soid = (false, none))
    (hd : ops.is_degraded_or_backfilling_object pg soid = true)
    (hr : ops.is_recovering pg soid = false) :
    (do_recover_missing ops pg soid).calls.filter Call.is_start_operation =
      [Call.start_operation soid { version := 0, epoch := 0 } (ops.get_osdmap_epoch pg)] ∧
    (do_recover_missing ops pg soid).fut =
      some (interruptible_future.of
        (ops.start_operation pg soid { version := 0, epoch := 0 }
          (ops.get_osdmap_epoch pg)).1.2) ∧
    (do_recover_missing ops pg soid).pg =
      (ops.start_operation pg soid { version := 0, epoch := 0 } (ops.get_osdmap_epoch pg)).2 := by
  have hn : needs_recovery ops pg soid = true := by simp [needs_recovery, hd]
  have hv : ver_after_check ops pg soid = { version := 0, epoch := 0 } := by
    simp [ver_after_check, hu]
  have h := do_recover_missing_starts ops pg soid hn hr
  rw [hv] at h
  exact h

/-- The degraded-only object 2 of the demonstration shard: its recovery task is
started with version (0, 0). -/
theorem do_recover_missing_degraded_only_version_witness :
    shard_ops.is_unreadable_object demo_shard ⟨2⟩ = (false, none) ∧
    shard_ops.is_degraded_or_backfilling_object demo_shard ⟨2⟩ = true ∧
    shard_ops.is_recovering demo_shard ⟨2⟩ = false ∧
    (do_recover_missing shard_ops demo_shard ⟨2⟩).calls.filter Call.is_start_operation =
      [Call.start_operation ⟨2⟩ { version := 0, epoch := 0 } 5] ∧
    (do_recover_missing shard_ops demo_shard ⟨2⟩).pg.tasks =
      [{ soid := ⟨2⟩, version := { version := 0, epoch := 0 }, epoch := 5,
         state := TaskState.Scheduled }] :=
  ⟨rfl, rfl, rfl,
    (do_recover_missing_degraded_only_version shard_ops demo_shard ⟨2⟩ rfl rfl rfl).1,
    congrArg Shard.tasks
      (do_recover_missing_degraded_only_version shard_ops demo_shard ⟨2⟩ rfl rfl rfl).2.2⟩


/-! ## Theorems about the modelled registry, scheduler and task (Part 2) -/

/-- A session found by a lookup is in the registry, under the key looked up. -/
theorem Registry.get_session_mem (registry : List RecoverySession) (soid : hobject_t)
    (s : RecoverySession) (h : Registry.get_session registry soid = some s) :
    s ∈ registry ∧ s.soid = soid := by
  unfold Registry.get_session at h
  exact ⟨List.mem_of_find?_eq_some h, by simpa using List.find?_some h⟩

/-- A registry that reports no recovery of `soid` has no session keyed `soid`. -/
theorem Registry.not_mem_keys (registry : List RecoverySession) (soid : hobject_t)
    (h : Registry.is_recovering registry soid = false) :
    soid ∉ registry.map (fun s => s.soid) := by
  induction registry with
  | nil => simp
  | cons s rest ih =>
    have hs : ¬ s.soid = soid := by
      intro hs; simp [Registry.is_recovering, hs] at h
    have hp : Registry.is_recovering rest soid = false := by
      simpa [Registry.is_recovering, hs] using h
    simp only [List.map_cons, List.mem_cons, not_or]
    exact ⟨fun e => hs e.symm, ih hp⟩

/-- Attaching a waiter changes no key of the registry. -/
theorem Registry.attach_waiter_keys (registry : List RecoverySession) (soid : hobject_t)
    (w : WaiterId) :
    (Registry.attach_waiter registry soid w).map (fun s => s.soid) =
      registry.map (fun s => s.soid) := by
  induction registry with
  | nil => rfl
  | cons s rest ih =>
    by_cases hs : s.soid = soid <;> simp [Registry.attach_waiter, hs, ih]

/-- A lookup stops at a head session with the key looked up. -/
theorem Registry.get_session_cons_pos (a : RecoverySession) (rest : List RecoverySession)
    (soid : hobject_t) (h : a.soid = soid) :
    Registry.get_session (a :: rest) soid = some a := by
  unfold Registry.get_session
  rw [List.find?_cons_of_pos]
  simpa using h

/-- A lookup skips a head session with another key. -/
theorem Registry.get_session_cons_neg (a : RecoverySession) (rest : List RecoverySession)
    (soid : hobject_t) (h : ¬ a.soid = soid) :
    Registry.get_session (a :: rest) soid = Registry.get_session rest soid := by
  unfold Registry.get_session
  rw [List.find?_cons_of_neg]
  simpa using h

/-- Attaching stops at a head session with the key. -/
theorem Registry.attach_waiter_cons_pos (a : RecoverySession) (rest : List RecoverySession)
    (soid : hobject_t) (w : WaiterId) (h : a.soid = soid) :
    Registry.attach_waiter (a :: rest) soid w =
      { a with waiters := a.waiters ++ [w] } :: rest := by
  simp only [Registry.attach_waiter, if_pos h]

/-- Attaching skips a head session with another key. -/
theorem Registry.attach_waiter_cons_neg (a : RecoverySession) (rest : List RecoverySession)
    (soid : hobject_t) (w : WaiterId) (h : ¬ a.soid = soid) :
    Registry.attach_waiter (a :: rest) soid w = a :: Registry.attach_waiter rest soid w := by
  simp only [Registry.attach_waiter, if_neg h]

/-- After a waiter is attached under `soid`, a lookup of `soid` finds the same
session with the waiter appended. -/
theorem Registry.get_session_attach_same (registry : List RecoverySession) (soid : hobject_t)
    (w : WaiterId) (s : RecoverySession) (h : Registry.get_session registry soid = some s) :
    Registry.get_session (Registry.attach_waiter registry soid w) soid =
      some { s with waiters := s.waiters ++ [w] } := by
  induction registry with
  | nil => simp [Registry.get_session] at h
  | cons a rest ih =>
    by_cases ha : a.soid = soid
    · rw [Registry.get_session_cons_pos a rest soid ha] at h
      have hEq : a = s := Option.some.inj h
      rw [Registry.attach_waiter_cons_pos a rest soid w ha, ← hEq]
      exact Registry.get_session_cons_pos { a with waiters := a.waiters ++ [w] } rest soid ha
    · rw [Registry.get_session_cons_neg a rest soid ha] at h
      rw [Registry.attach_waiter_cons_neg a rest soid w ha,
        Registry.get_session_cons_neg a _ soid ha]
      exact ih h

/-- Calls that start nothing start nothing in total. -/
theorem started_operations_eq_zero {σ F : Type} (rs : List (Returned σ F))
    (h : ∀ r ∈ rs, r.calls.countP Call.is_start_operation = 0) :
    started_operations rs = 0 := by
  induction rs with
  | nil => rfl
  | cons r rs ih =>
    have h0 := h r (List.mem_cons_self _ _)
    have hrest := ih (fun x hx => h x (List.mem_cons_of_mem _ hx))
    simp only [started_operations, List.map_cons, List.sum_cons] at hrest ⊢
    rw [h0, hrest]

/-- A call on an object that needs recovery and has no session: the scheduler
is asked to start a task, the caller gets the future of that operation, and
the registry is left as it was. -/
theorem gate_start (sh : Shard) (soid : hobject_t)
    (hn : needs_recovery shard_ops sh soid = true)
    (hr : Registry.is_recovering sh.registry soid = false) :
    (do_recover_missing shard_ops sh soid).pg =
      { sh with tasks := sh.tasks ++
          [{ soid := soid, version := ver_after_check shard_ops sh soid, epoch := sh.epoch,
             state := TaskState.Scheduled }] } ∧
    (do_recover_missing shard_ops sh soid).fut =
      some (interruptible_future.of (Awaitable.operation sh.tasks.length)) ∧
    (do_recover_missing shard_ops sh soid).calls.countP Call.is_start_operation = 1 := by
  obtain ⟨h1, h2, h3⟩ := do_recover_missing_starts shard_ops sh soid hn hr
  refine ⟨h3, h2, ?_⟩
  rw [List.countP_eq_length_filter, h1]
  rfl

/-- A call on an object that needs recovery and has a session: the caller
becomes the next waiter of that session and nothing is started. -/
theorem gate_attach (sh : Shard) (soid : hobject_t) (session : RecoverySession)
    (hn : needs_recovery shard_ops sh soid = true)
    (hs : Registry.get_session sh.registry soid = some session) :
    (do_recover_missing shard_ops sh soid).pg =
      { sh with
        registry := Registry.attach_waiter sh.registry soid sh.next_waiter,
        next_waiter := sh.next_waiter + 1 } ∧
    (do_recover_missing shard_ops sh soid).fut =
      some (interruptible_future.of (Awaitable.waiter sh.next_waiter)) ∧
    (do_recover_missing shard_ops sh soid).calls.countP Call.is_start_operation = 0 ∧
    Call.wait_for_recovered ∈ (do_recover_missing shard_ops sh soid).calls := by
  have hrec : shard_ops.is_recovering sh soid = true := by
    show Registry.is_recovering sh.registry soid = true
    rw [← Registry.get_session_isSome, hs]
    rfl
  obtain ⟨h1, h2, h3, h4⟩ := do_recover_missing_waits shard_ops sh soid session hn hrec hs
  refine ⟨?_, h1, h3, h4⟩
  rw [h2]
  show (Shard.wait_for_recovered sh session).2 = _
  simp only [Shard.wait_for_recovered, (Registry.get_session_mem _ _ _ hs).2]

/-- Any number `k` of calls in a row on an object that needs recovery and has a
session: the callers become the next `k` waiters of that session, in order;
nothing is started; tasks, resolutions, epoch and view are untouched. -/
theorem gate_attach_in_a_row (soid : hobject_t) (k : Nat) :
    ∀ (sh : Shard) (session : RecoverySession),
    needs_recovery shard_ops sh soid = true →
    Registry.get_session sh.registry soid = some session →
    Registry.get_session (pg_after shard_ops soid k sh).registry soid =
      some { session with waiters := session.waiters ++ List.range' sh.next_waiter k } ∧
    futures_of (calls_in_a_row shard_ops soid k sh) =
      (List.range' sh.next_waiter k).map
        (fun w => some (interruptible_future.of (Awaitable.waiter w))) ∧
    (∀ r ∈ calls_in_a_row shard_ops soid k sh,
      r.calls.countP Call.is_start_operation = 0 ∧ Call.wait_for_recovered ∈ r.calls) ∧
    (pg_after shard_ops soid k sh).tasks = sh.tasks ∧
    (pg_after shard_ops soid k sh).resolved = sh.resolved ∧
    (pg_after shard_ops soid k sh).epoch = sh.epoch ∧
    (pg_after shard_ops soid k sh).unreadable = sh.unreadable ∧
    (pg_after shard_ops soid k sh).degraded = sh.degraded ∧
    (pg_after shard_ops soid k sh).next_waiter = sh.next_waiter + k ∧
    (pg_after shard_ops soid k sh).registry.map (fun s => s.soid) =
      sh.registry.map (fun s => s.soid) := by
  induction k with
  | zero =>
    intro sh session _ hs
    refine ⟨?_, rfl, ?_, rfl, rfl, rfl, rfl, rfl, rfl, rfl⟩
    · simpa [pg_after] using hs
    · intro r hr
      simp [calls_in_a_row] at hr
  | succ k ih =>
    intro sh session hn hs
    obtain ⟨h1, h2, h3, h4⟩ := gate_attach sh soid session hn hs
    have hs1 : Registry.get_session (do_recover_missing shard_ops sh soid).pg.registry soid =
        some { session with waiters := session.waiters ++ [sh.next_waiter] } := by
      rw [h1]
      exact Registry.get_session_attach_same _ _ _ _ hs
    have hn1 : needs_recovery shard_ops (do_recover_missing shard_ops sh soid).pg soid = true := by
      rw [h1]
      exact hn
    obtain ⟨i1, i2, i3, i4, i5, i6, i7, i8, i9, i10⟩ :=
      ih (do_recover_missing shard_ops sh soid).pg _ hn1 hs1
    have hnext : (do_recover_missing shard_ops sh soid).pg.next_waiter = sh.next_waiter + 1 := by
      rw [h1]
    simp only [pg_after]
    refine ⟨?_, ?_, ?_, ?_, ?_, ?_, ?_, ?_, ?_, ?_⟩
    · rw [i1, hnext, List.range'_succ]
      simp
    · simp only [calls_in_a_row, futures_of, List.map_cons]
      have i2' := i2
      simp only [futures_of] at i2'
      rw [i2', h2, hnext, List.range'_succ, List.map_cons]
    · intro r hmem
      simp only [calls_in_a_row, List.mem_cons] at hmem
      rcases hmem with rfl | hmem
      · exact ⟨h3, h4⟩
      · exact i3 r hmem
    · rw [i4, h1]
    · rw [i5, h1]
    · rw [i6, h1]
    · rw [i7, h1]
    · rw [i8, h1]
    · rw [i9, hnext]
      exact Nat.add_assoc sh.next_waiter 1 k ▸ (by rw [Nat.add_comm 1 k])
    · rw [i10, h1]
      exact Registry.attach_waiter_keys _ _ _

/-! ### The invariant is kept by the gate and by the terminal transitions -/

/-- The terminal transitions lead to terminal states only. -/
theorem terminal_state_ne_running (current : epoch_t) (t : RecoveryTask) (r : Report)
    (st : TaskState) (hst : terminal_state current t r = some st) :
    st ≠ TaskState.Running := by
  cases r <;> simp only [terminal_state] at hst
  · split at hst <;> cases hst <;> decide
  · cases hst; decide
  · split at hst
    · cases hst; decide
    · cases hst

/-- Registering a session keeps the invariant. -/
theorem Shard.wf_create_session (sh : Shard) (soid : hobject_t) (v : eversion_t)
    (h : TaskHandle) (hwf : sh.wf) : (sh.create_session soid v h).wf := by
  cases hr : Registry.is_recovering sh.registry soid with
  | true =>
    have hreg : (sh.create_session soid v h).registry = sh.registry := by
      simp [Shard.create_session, Registry.create_session, hr]
    exact ⟨hreg ▸ hwf.keys, hwf.resolved_lt, hreg ▸ hwf.waiters_lt, hreg ▸ hwf.waiters_nodup,
      hreg ▸ hwf.waiters_disjoint, hreg ▸ hwf.unresolved, hreg ▸ hwf.linked⟩
  | false =>
    have hreg : (sh.create_session soid v h).registry = sh.registry ++
        [{ soid := soid, version := v, task := h, waiters := [], epoch := sh.epoch }] := by
      simp [Shard.create_session, Registry.create_session, hr]
    have hmem : ∀ s ∈ (sh.create_session soid v h).registry, ∀ w ∈ s.waiters,
        s ∈ sh.registry := by
      intro s hs w hw
      rw [hreg, List.mem_append, List.mem_singleton] at hs
      rcases hs with hs | hs
      · exact hs
      · rw [hs] at hw
        cases hw
    refine ⟨?_, hwf.resolved_lt, ?_, ?_, ?_, ?_, ?_⟩
    · rw [hreg, List.map_append, List.nodup_append]
      refine ⟨hwf.keys, List.nodup_singleton _, ?_⟩
      intro a ha hb
      simp only [List.map_cons, List.map_nil, List.mem_singleton] at hb
      exact Registry.not_mem_keys sh.registry soid hr (hb ▸ ha)
    · intro s hs w hw
      exact hwf.waiters_lt s (hmem s hs w hw) w hw
    · intro s hs
      rw [hreg, List.mem_append, List.mem_singleton] at hs
      rcases hs with hs | hs
      · exact hwf.waiters_nodup s hs
      · rw [hs]
        exact List.nodup_nil
    · intro s1 hs1 s2 hs2 w hw1 hw2
      exact hwf.waiters_disjoint s1 (hmem s1 hs1 w hw1) s2 (hmem s2 hs2 w hw2) w hw1 hw2
    · intro s hs w hw
      exact hwf.unresolved s (hmem s hs w hw) w hw
    · intro h1 t1 ht1 hrun1
      obtain ⟨s1, hs1, htask1⟩ := hwf.linked h1 t1 ht1 hrun1
      refine ⟨s1, ?_, htask1⟩
      rw [hreg]
      unfold Registry.get_session at hs1 ⊢
      rw [List.find?_append, hs1]
      rfl

/-- Dispatching a task whose session is registered keeps the invariant. -/
theorem Shard.wf_dispatch (sh s : Shard) (h : TaskHandle) (hwf : sh.wf)
    (hsess : ∀ t, sh.tasks[h]? = some t →
      ∃ session, Registry.get_session sh.registry t.soid = some session ∧ session.task = h)
    (hd : sh.dispatch h = some s) : s.wf := by
  unfold Shard.dispatch at hd
  cases ht : sh.tasks[h]? with
  | none => rw [ht] at hd; cases hd
  | some t =>
    rw [ht] at hd
    by_cases hsch : t.state = TaskState.Scheduled
    · simp only [if_pos hsch] at hd
      cases hd
      refine ⟨hwf.keys, hwf.resolved_lt, hwf.waiters_lt, hwf.waiters_nodup,
        hwf.waiters_disjoint, hwf.unresolved, ?_⟩
      intro h1 t1 ht1 hrun1
      have ht1' : (sh.tasks.set h { t with state := TaskState.Running })[h1]? = some t1 := ht1
      by_cases hh : h = h1
      · subst hh
        rw [List.getElem?_set_self', ht] at ht1'
        have : t1 = { t with state := TaskState.Running } := by simpa using ht1'.symm
        rw [this]
        exact hsess t ht
      · rw [List.getElem?_set_ne hh] at ht1'
        exact hwf.linked h1 t1 ht1' hrun1
    · simp only [if_neg hsch] at hd
      cases hd

/-! ### The claims on the modelled shard -/

/-- A registry without a session for `soid` is skipped by a lookup of `soid`. -/
theorem Registry.get_session_append (pre rest : List RecoverySession) (soid : hobject_t)
    (h : Registry.is_recovering pre soid = false) :
    Registry.get_session (pre ++ rest) soid = Registry.get_session rest soid := by
  induction pre with
  | nil => rfl
  | cons s pre ih =>
    have hs : ¬ s.soid = soid := by
      intro hs; simp [Registry.is_recovering, hs] at h
    have hp : Registry.is_recovering pre soid = false := by
      simpa [Registry.is_recovering, hs] using h
    rw [List.cons_append, Registry.get_session_cons_neg s _ soid hs]
    exact ih hp

/-- Any number `n` of calls in a row on an object that needs recovery while no
session is registered for it: every call asks the scheduler for a new task
and the registry is left as it was. -/
theorem gate_start_in_a_row (soid : hobject_t) (n : Nat) :
    ∀ sh : Shard, needs_recovery shard_ops sh soid = true →
    Registry.is_recovering sh.registry soid = false →
    pg_after shard_ops soid n sh =
      { sh with
        tasks := sh.tasks ++ List.replicate n
                  { soid := soid, version := ver_after_check shard_ops sh soid,
                    epoch := sh.epoch, state := TaskState.Scheduled } } ∧
    started_operations (calls_in_a_row shard_ops soid n sh) = n ∧
    futures_of (calls_in_a_row shard_ops soid n sh) =
      (List.range' sh.tasks.length n).map
        (fun h => some (interruptible_future.of (Awaitable.operation h))) := by
  induction n with
  | zero =>
    intro sh _ _
    refine ⟨?_, rfl, rfl⟩
    simp [pg_after]
  | succ n ih =>
    intro sh hn hr
    obtain ⟨h1, h2, h3⟩ := gate_start sh soid hn hr
    obtain ⟨i1, i2, i3⟩ := ih
      { sh with tasks := sh.tasks ++
          [{ soid := soid, version := ver_after_check shard_ops sh soid, epoch := sh.epoch,
             state := TaskState.Scheduled }] } hn hr
    refine ⟨?_, ?_, ?_⟩
    · simp only [pg_after]
      rw [h1, i1]
      simp only [List.append_assoc, List.singleton_append, List.replicate_succ]
      rfl
    · simp only [calls_in_a_row, started_operations, List.map_cons, List.sum_cons]
      rw [h1, h3]
      have i2' := i2
      simp only [started_operations] at i2'
      rw [i2', Nat.add_comm]
    · simp only [calls_in_a_row, futures_of, List.map_cons]
      rw [h1, h2]
      have i3' := i3
      simp only [futures_of] at i3'
      rw [i3', List.range'_succ, List.map_cons]
      simp

/-- Counterexample to C5 as stated (on the registry and scheduler modelled from
the specification): object 1 of the demonstration shard needs recovery and has
no session, and two calls of `do_recover_missing` in a row start two recovery
tasks, not one; neither call leaves a session registered, so
`is_recovering(soid)` is still false when each of them returns. -/
theorem gate_deduplicates_counterexample :
    needs_recovery shard_ops demo_shard ⟨1⟩ = true ∧
    Registry.is_recovering demo_shard.registry ⟨1⟩ = false ∧
    started_operations (calls_in_a_row shard_ops ⟨1⟩ 2 demo_shard) = 2 ∧
    ¬ started_operations (calls_in_a_row shard_ops ⟨1⟩ 2 demo_shard) = 1 ∧
    (calls_in_a_row shard_ops ⟨1⟩ 2 demo_shard).map
      (fun r => Registry.is_recovering r.pg.registry ⟨1⟩) = [false, false] ∧
    (pg_after shard_ops ⟨1⟩ 2 demo_shard).registry = [] := by
  decide

/-- C5, amended (on the registry and scheduler modelled from the
specification).  `do_recover_missing` registers no session itself.  While no
session is registered for an object that needs recovery, each of `N` calls in a
row starts its own recovery task and gets that operation's future, and the
registry stays as it was.  Once a session has been registered for `soid` (here
for a version `v` and a task handle `h`), each of `M` calls in a row finds that
session, attaches to it as its next waiter and starts nothing: the `M` futures
are the `M` waiters of that one session, no task is added, and the registry,
which had at most one session per object, still has at most one per object. -/
theorem gate_deduplicates_once_registered (sh : Shard) (soid : hobject_t) (N M : Nat)
    (hkeys : (sh.registry.map (fun s => s.soid)).Nodup)
    (hn : needs_recovery shard_ops sh soid = true)
    (hr : Registry.is_recovering sh.registry soid = false) :
    started_operations (calls_in_a_row shard_ops soid N sh) = N ∧
    (pg_after shard_ops soid N sh).tasks =
      sh.tasks ++ List.replicate N
        { soid := soid, version := ver_after_check shard_ops sh soid, epoch := sh.epoch,
          state := TaskState.Scheduled } ∧
    (pg_after shard_ops soid N sh).registry = sh.registry ∧
    futures_of (calls_in_a_row shard_ops soid N sh) =
      (List.range' sh.tasks.length N).map
        (fun h => some (interruptible_future.of (Awaitable.operation h))) ∧
    ∀ (v : eversion_t) (h : TaskHandle),
      started_operations (calls_in_a_row shard_ops soid M
        ((pg_after shard_ops soid N sh).create_session soid v h)) = 0 ∧
      Registry.get_session (pg_after shard_ops soid M
        ((pg_after shard_ops soid N sh).create_session soid v h)).registry soid =
        some { soid := soid, version := v, task := h,
               waiters := List.range' sh.next_waiter M, epoch := sh.epoch } ∧
      futures_of (calls_in_a_row shard_ops soid M
        ((pg_after shard_ops soid N sh).create_session soid v h)) =
        (List.range' sh.next_waiter M).map
          (fun w => some (interruptible_future.of (Awaitable.waiter w))) ∧
      (pg_after shard_ops soid M
        ((pg_after shard_ops soid N sh).create_session soid v h)).tasks =
        (pg_after shard_ops soid N sh).tasks ∧
      ((pg_after shard_ops soid M
        ((pg_after shard_ops soid N sh).create_session soid v h)).registry.map
          (fun s => s.soid)).Nodup := by
  obtain ⟨h1, h2, h3⟩ := gate_start_in_a_row soid N sh hn hr
  refine ⟨h2, by rw [h1], by rw [h1], h3, ?_⟩
  intro v h
  have hreg : ((pg_after shard_ops soid N sh).create_session soid v h).registry =
      sh.registry ++
        [{ soid := soid, version := v, task := h, waiters := [], epoch := sh.epoch }] := by
    rw [h1]
    simp [Shard.create_session, Registry.create_session, hr]
  have hs : Registry.get_session
      ((pg_after shard_ops soid N sh).create_session soid v h).registry soid =
      some { soid := soid, version := v, task := h, waiters := [], epoch := sh.epoch } := by
    rw [hreg, Registry.get_session_append _ _ _ hr]
    exact Registry.get_session_cons_pos _ _ _ rfl
  have hn1 : needs_recovery shard_ops
      ((pg_after shard_ops soid N sh).create_session soid v h) soid = true := by
    rw [h1]
    exact hn
  have hnext : ((pg_after shard_ops soid N sh).create_session soid v h).next_waiter =
      sh.next_waiter := by
    rw [h1]
    rfl
  obtain ⟨a1, a2, a3, a4, -, -, -, -, -, a10⟩ :=
    gate_attach_in_a_row soid M _ _ hn1 hs
  refine ⟨started_operations_eq_zero _ (fun r hr0 => (a3 r hr0).1), ?_, ?_, ?_, ?_⟩
  · rw [a1, hnext]
    simp
  · rw [a2, hnext]
  · rw [a4]
    rfl
  · rw [a10, hreg, List.map_append, List.nodup_append]
    refine ⟨hkeys, List.nodup_singleton _, ?_⟩
    intro a ha hb
    simp only [List.map_cons, List.map_nil, List.mem_singleton] at hb
    exact Registry.not_mem_keys sh.registry soid hr (hb ▸ ha)

/-- The amended C5 in the scenario of section 8: two callers on object 1 of
the demonstration shard while no session is registered start two tasks; once a
session is registered for task 0, three callers become its waiters 0, 1, 2. -/
theorem gate_deduplicates_once_registered_witness :
    (demo_shard.registry.map (fun s => s.soid)).Nodup ∧
    needs_recovery shard_ops demo_shard ⟨1⟩ = true ∧
    Registry.is_recovering demo_shard.registry ⟨1⟩ = false ∧
    started_operations (calls_in_a_row shard_ops ⟨1⟩ 2 demo_shard) = 2 ∧
    started_operations (calls_in_a_row shard_ops ⟨1⟩ 3
      ((pg_after shard_ops ⟨1⟩ 2 demo_shard).create_session ⟨1⟩
        { version := 3, epoch := 5 } 0)) = 0 ∧
    Registry.get_session (pg_after shard_ops ⟨1⟩ 3
      ((pg_after shard_ops ⟨1⟩ 2 demo_shard).create_session ⟨1⟩
        { version := 3, epoch := 5 } 0)).registry ⟨1⟩ =
      some { soid := ⟨1⟩, version := { version := 3, epoch := 5 }, task := 0,
             waiters := [0, 1, 2], epoch := 5 } :=
  ⟨List.nodup_nil, rfl, rfl,
    (gate_deduplicates_once_registered demo_shard ⟨1⟩ 2 3 List.nodup_nil rfl rfl).1,
    ((gate_deduplicates_once_registered demo_shard ⟨1⟩ 2 3 List.nodup_nil rfl rfl).2.2.2.2
      { version := 3, epoch := 5 } 0).1,
    ((gate_deduplicates_once_registered demo_shard ⟨1⟩ 2 3 List.nodup_nil rfl rfl).2.2.2.2
      { version := 3, epoch := 5 } 0).2.1⟩

/-- First scenario, once a session is registered for the started task: two
callers attach, the protocol confirms the object; both waiters receive success,
the registry has no entry, the task is `Completed`. -/
theorem scenario_completed :
    ((pg_after shard_ops ⟨1⟩ 2 demo_running).terminate 0 Report.recovered).map
      (fun s => (s.resolved, s.registry, s.tasks.map (fun t => t.state))) =
    some ([(0, Outcome.success), (1, Outcome.success)], [], [TaskState.Completed]) := by
  decide

/-- Second scenario: the epoch advances to 6 before the task completes; both
waiters receive the interruption signal, the registry has no entry, the task
is `Cancelled`, and a completion reported afterwards is refused. -/
theorem scenario_interrupted :
    ((pg_after shard_ops ⟨1⟩ 2 demo_running).advance_epoch 6).map
      (fun s => (s.resolved, s.registry, s.tasks.map (fun t => t.state),
        (s.terminate 0 Report.recovered).isSome)) =
    some ([(0, Outcome.interrupted), (1, Outcome.interrupted)], [], [TaskState.Cancelled],
      false) := by
  decide

end Crimson
